import Mathlib

/- Shallow embedding of the `nse-pre-open-data` repository.

`src/script.ts` is the browser pipeline: `uploadToR2` (the Archiver) and
`run` (the Pipeline Orchestrator).  External effects (navigation,
screenshots, the download event, the object store, the clock) are modelled
by a `RunEnv` record giving each effect's outcome; `run` returns the list
of observable events in program order together with the spec's terminal
outcome classification.

`src/src/api/rate-limiter.ts` and `src/src/api/index.ts` are the read API:
a sliding-window rate limiter (a Durable Object keyed by caller IP) and
the paginated `/api/dates` route. -/

/-- JS truthiness of `process.env.X`: `undefined` and the empty string are
falsy (script.ts:30). -/
def truthy : Option String → Bool
  | none => false
  | some s => !(s == "")

/-- script.ts:38-39: the storage key computed by `uploadToR2` from the
archival-time UTC date (`new Date().toISOString().split('T')[0]`) and the
artifact's file name. -/
def storageKey (today fileName : String) : String :=
  "nse-preopen/" ++ today ++ "/" ++ fileName

/-- Observable events of one pipeline run, in program order. -/
inductive Ev where
  | nav (ok : Bool)
  | shot (path : String) (ok : Bool)
  | title (ok : Bool)
  | waitSel (found : Bool)
  | clickDropdown (ok : Bool)
  | selectOpt (ok : Bool)
  | checkVisible (visible : Bool)
  | armListener
  | clickDownload (ok : Bool)
  | awaitDownload (ok : Bool)
  | save (path : String) (ok : Bool)
  | uploadSkip
  | uploadAttempt
  | putObject (key : String) (ok : Bool)
  | queryUrl (ok : Bool)
  | closeBrowser
  deriving DecidableEq, Repr

/-- script.ts:28-61 `uploadToR2`: the events it emits and its boolean
result.  The credential check (line 30) short-circuits with a skip notice;
`readOk` and `sendOk` give the outcomes of `fs.readFileSync` and
`r2Client.send`, either failure being caught by the surrounding try/catch
which returns `false`. -/
def uploadToR2 (accessKeyId secretAccessKey : Option String)
    (readOk sendOk : Bool) (today fileName : String) : List Ev × Bool :=
  if truthy accessKeyId = false ∨ truthy secretAccessKey = false then
    ([Ev.uploadSkip], false)
  else if readOk = false then ([Ev.uploadAttempt], false)
  else if sendOk then
    ([Ev.uploadAttempt, Ev.putObject (storageKey today fileName) true], true)
  else
    ([Ev.uploadAttempt, Ev.putObject (storageKey today fileName) false], false)

/-- Outcomes of every external effect of one run of script.ts `run`.
String and Nat fields carry the values the environment supplies: the
download's suggested file name (empty when the target provides none), the
two `Date.now()` readings at script.ts:143 and script.ts:149, and the
archival-time UTC date. -/
structure RunEnv where
  gotoOk : Bool
  initialShotOk : Bool
  titleOk : Bool
  selectorFound : Bool
  clickDropdownOk : Bool
  selectOptionOk : Bool
  csvVisible : Bool
  clickDownloadOk : Bool
  downloadResolves : Bool
  suggestedName : String
  nowAtSave : Nat
  nowAtUpload : Nat
  saveOk : Bool
  accessKeyId : Option String
  secretAccessKey : Option String
  readOk : Bool
  sendOk : Bool
  today : String
  postShotOk : Bool
  errShotOk : Bool
  urlOk : Bool
  fatalShotOk : Bool
  deriving DecidableEq, Repr

/-- JS `s || dflt` for strings: the empty string is falsy
(script.ts:143,149). -/
def jsOr (s dflt : String) : String := if s == "" then dflt else s

/-- The synthesized file name `pre-open-data-${Date.now()}.csv`
(script.ts:143,149). -/
def synthName (now : Nat) : String := "pre-open-data-" ++ toString now ++ ".csv"

/-- script.ts:107-164, the inner `try` body: dropdown selection and
download capture.  Returns the emitted events and whether the block threw
(landing in the inner `catch`).  `path.join('./downloads', f)` normalizes
to `downloads/f`. -/
def innerBlock (e : RunEnv) : List Ev × Bool :=
  if e.selectorFound = false then ([Ev.waitSel false], true)
  else if e.clickDropdownOk = false then ([Ev.waitSel true, Ev.clickDropdown false], true)
  else if e.selectOptionOk = false then
    ([Ev.waitSel true, Ev.clickDropdown true, Ev.selectOpt false], true)
  else if e.csvVisible = false then
    ([Ev.waitSel true, Ev.clickDropdown true, Ev.selectOpt true, Ev.checkVisible false], false)
  else if e.clickDownloadOk = false then
    ([Ev.waitSel true, Ev.clickDropdown true, Ev.selectOpt true, Ev.checkVisible true,
      Ev.armListener, Ev.clickDownload false], true)
  else if e.downloadResolves = false then
    ([Ev.waitSel true, Ev.clickDropdown true, Ev.selectOpt true, Ev.checkVisible true,
      Ev.armListener, Ev.clickDownload true, Ev.awaitDownload false], true)
  else if e.saveOk = false then
    ([Ev.waitSel true, Ev.clickDropdown true, Ev.selectOpt true, Ev.checkVisible true,
      Ev.armListener, Ev.clickDownload true, Ev.awaitDownload true,
      Ev.save ("downloads/" ++ jsOr e.suggestedName (synthName e.nowAtSave)) false], true)
  else
    ([Ev.waitSel true, Ev.clickDropdown true, Ev.selectOpt true, Ev.checkVisible true,
      Ev.armListener, Ev.clickDownload true, Ev.awaitDownload true,
      Ev.save ("downloads/" ++ jsOr e.suggestedName (synthName e.nowAtSave)) true]
      ++ (uploadToR2 e.accessKeyId e.secretAccessKey e.readOk e.sendOk e.today
          (jsOr e.suggestedName (synthName e.nowAtUpload))).1
      ++ [Ev.shot "./screenshots/after-download.png" e.postShotOk],
     !e.postShotOk)

/-- spec section 3 RunOutcome: terminal classification of a run. -/
inductive RunOutcome where
  | completed
  | partialFailure
  | fatalFailure
  deriving DecidableEq, Repr

/-- script.ts:88-166, the outer `try` body (navigation, initial
screenshot, title, inner block, inner catch with its error-state
screenshot).  Returns the emitted events and whether the block threw,
landing in the outer `catch`. -/
def outerBody (e : RunEnv) : List Ev × Bool :=
  if e.gotoOk = false then ([Ev.nav false], true)
  else if e.initialShotOk = false then
    ([Ev.nav true, Ev.shot "./screenshots/pre-open-market.png" false], true)
  else if e.titleOk = false then
    ([Ev.nav true, Ev.shot "./screenshots/pre-open-market.png" true, Ev.title false], true)
  else if (innerBlock e).2 = false then
    ([Ev.nav true, Ev.shot "./screenshots/pre-open-market.png" true, Ev.title true]
      ++ (innerBlock e).1, false)
  else
    ([Ev.nav true, Ev.shot "./screenshots/pre-open-market.png" true, Ev.title true]
      ++ (innerBlock e).1 ++ [Ev.shot "./screenshots/error-state.png" e.errShotOk],
     !e.errShotOk)

/-- script.ts:168-178, the outer `catch`: query the current URL and, when
that succeeds, attempt the fatal-error screenshot; a failure of either is
caught by the nested try/catch at script.ts:172-178. -/
def fatalTail (e : RunEnv) : List Ev :=
  if e.urlOk then [Ev.queryUrl true, Ev.shot "./screenshots/error-page.png" e.fatalShotOk]
  else [Ev.queryUrl false]

/-- The event is a successful `PutObjectCommand` send, i.e. the artifact
was archived. -/
def isPutTrue : Ev → Bool
  | Ev.putObject _ true => true
  | _ => false

/-- The full event trace of one run of script.ts:63-183 `run`: the outer
try body, then on an outer throw the catch handler, then the `finally`
block closing the browser on every path. -/
def runTrace (e : RunEnv) : List Ev :=
  if (outerBody e).2 then (outerBody e).1 ++ fatalTail e ++ [Ev.closeBrowser]
  else (outerBody e).1 ++ [Ev.closeBrowser]

/-- The spec's terminal classification of the run: `fatalFailure` when the
outer catch was entered, `completed` when the artifact was archived,
`partialFailure` otherwise. -/
def runOutcomeOf (e : RunEnv) : RunOutcome :=
  if (outerBody e).2 then RunOutcome.fatalFailure
  else if (runTrace e).any isPutTrue then RunOutcome.completed
  else RunOutcome.partialFailure

/-- script.ts:63-183 `run`: the full pipeline, as its event trace in
program order together with its terminal classification. -/
def run (e : RunEnv) : List Ev × RunOutcome := (runTrace e, runOutcomeOf e)

/-- The event is a diagnostic screenshot capture (attempted, whether or
not its I/O succeeded). -/
def isShot : Ev → Bool
  | Ev.shot _ _ => true
  | _ => false

/-- The event is an invocation of the Archiver (`uploadToR2`), whether it
skipped, failed or uploaded. -/
def isArchiverCall : Ev → Bool
  | Ev.uploadSkip => true
  | Ev.uploadAttempt => true
  | Ev.putObject _ _ => true
  | _ => false

/-- The event closes the browser session. -/
def isClose : Ev → Bool
  | Ev.closeBrowser => true
  | _ => false

/-- rate-limiter.ts:3: the sliding window length in milliseconds. -/
def WINDOW_MS : Nat := 60000

/-- rate-limiter.ts:4: the request ceiling per window. -/
def MAX_REQUESTS : Nat := 30

/-- rate-limiter.ts:10-12: the stored timestamps kept after dropping
those outside the window ending at `now`. -/
def recentRequests (now : Nat) (requests : List Nat) : List Nat :=
  requests.filter (fun t => decide (now - t < WINDOW_MS))

/-- rate-limiter.ts:6-27 `RateLimiter.fetch`: the new stored state and the
`allowed` flag of the JSON response body. -/
def RateLimiter.fetch (requests : List Nat) (now : Nat) : List Nat × Bool :=
  if MAX_REQUESTS ≤ (recentRequests now requests).length then
    (recentRequests now requests, false)
  else (recentRequests now requests ++ [now], true)

/-- Timestamps of the requests the limiter allows, processing `arrivals`
in order starting from state `requests`. -/
def allowedTimes (requests : List Nat) : List Nat → List Nat
  | [] => []
  | now :: rest =>
    if (RateLimiter.fetch requests now).2 then
      now :: allowedTimes (RateLimiter.fetch requests now).1 rest
    else allowedTimes (RateLimiter.fetch requests now).1 rest

/-- The limiter's stored state after processing `arrivals` in order. -/
def finalState (requests : List Nat) : List Nat → List Nat
  | [] => requests
  | now :: rest => finalState (RateLimiter.fetch requests now).1 rest

/-- `t` lies in the length-`WINDOW_MS` window starting at `a`. -/
def inWindow (a t : Nat) : Bool := decide (a ≤ t) && decide (t < a + WINDOW_MS)

/-- api/index.ts:18-36: the rate-limiting middleware.  `none` means the
request proceeds to the route; otherwise the HTTP status and structured
error message returned to the caller. -/
def rateLimitResponse (allowed : Bool) : Option (Nat × String) :=
  if allowed then none else some (429, "Rate limit exceeded")

/-- api/index.ts:118: shape check for the capture group of the regex
applied to an object key, i.e. four digits, dash, two digits, dash, two
digits. -/
def dateShape : List Char → Bool
  | [y1, y2, y3, y4, s1, m1, m2, s2, d1, d2] =>
    y1.isDigit && y2.isDigit && y3.isDigit && y4.isDigit && (s1 == '-') &&
    m1.isDigit && m2.isDigit && (s2 == '-') && d1.isDigit && d2.isDigit
  | _ => false

/-- api/index.ts:117-122: the date captured by matching
the regex for a `YYYY-MM-DD.csv` suffix against an object key, when the
key matches. -/
def dateSuffix (key : String) : Option String :=
  let cs := key.data
  if cs.length < 14 then none
  else
    let tail := cs.drop (cs.length - 14)
    if dateShape (tail.take 10) && (tail.drop 10 == ['.', 'c', 's', 'v']) then
      some (String.mk (tail.take 10))
    else none

/-- api/index.ts:116-122: `Set.add` in `forEach` order (a JS `Set` keeps
the first insertion). -/
def addUnique (acc : List String) (x : String) : List String :=
  if x ∈ acc then acc else acc ++ [x]

/-- The unique captured dates of the listed keys, in first-seen order. -/
def collectDates (keys : List String) : List String :=
  keys.foldl (fun acc k =>
    match dateSuffix k with
    | some d => addUnique acc d
    | none => acc) []

/-- The JSON body of a successful `/api/dates` response. -/
structure ListDatesResponse where
  dates : List String
  totalCount : Nat
  page : Nat
  limit : Nat
  totalPages : Nat
  deriving DecidableEq, Repr

/-- JS `query.x || d` over an already-parsed optional natural: absent and
`0` (both falsy) yield the default `d` (api/index.ts:107-108). -/
def defaultOr (q : Option Nat) (d : Nat) : Nat :=
  match q with
  | none => d
  | some 0 => d
  | some v => v

/-- api/index.ts:111-124: the deduplicated captured dates of the keys
under the `pre-open-market/` prefix, sorted ascending by JS `Array.sort()`
(code-unit lexicographic) and reversed, i.e. newest first. -/
def bucketDates (allKeys : List String) : List String :=
  (List.insertionSort (fun a b => a ≤ b)
    (collectDates (allKeys.filter (fun k => String.isPrefixOf "pre-open-market/" k)))).reverse

/-- api/index.ts:105-147: the `/api/dates` handler.  `allKeys` is the full
content of the bucket; `R2_BUCKET.list` returns the keys under the
`pre-open-market/` prefix.  Query values arrive parsed as naturals.
`Math.ceil(totalCount / limit)` on naturals is
`(totalCount + limit - 1) / limit`; `slice(start, start + limit)` is
`drop start` then `take limit`. -/
def listDatesHandler (allKeys : List String) (pageQ limitQ : Option Nat) : ListDatesResponse :=
  { dates := ((bucketDates allKeys).drop ((defaultOr pageQ 1 - 1) * defaultOr limitQ 10)).take
      (defaultOr limitQ 10)
    totalCount := (bucketDates allKeys).length
    page := defaultOr pageQ 1
    limit := defaultOr limitQ 10
    totalPages := ((bucketDates allKeys).length + defaultOr limitQ 10 - 1) / defaultOr limitQ 10 }

/-- A fully successful environment: every external effect succeeds, the
target suggests `preopen_20240924.csv`, both credentials are present and
the archival-time UTC date is 2024-09-24. -/
def happyEnv : RunEnv :=
  { gotoOk := true, initialShotOk := true, titleOk := true, selectorFound := true,
    clickDropdownOk := true, selectOptionOk := true, csvVisible := true,
    clickDownloadOk := true, downloadResolves := true,
    suggestedName := "preopen_20240924.csv", nowAtSave := 1000, nowAtUpload := 2000,
    saveOk := true, accessKeyId := some "key-id", secretAccessKey := some "secret-key",
    readOk := true, sendOk := true, today := "2024-09-24",
    postShotOk := true, errShotOk := true, urlOk := true, fatalShotOk := true }

/-- `happyEnv` with the target suggesting no file name, so both
`Date.now()`-based names are synthesized: at script.ts:143 the clock reads
1000, at script.ts:149 it reads 2000. -/
def noNameEnv : RunEnv := { happyEnv with suggestedName := "" }

/-- A two-element list is a sublist of any list containing the pair
adjacently. -/
theorem pair_sublist_append (pre post : List Ev) (a c : Ev) :
    [a, c].Sublist (pre ++ a :: c :: post) := by
  induction pre with
  | nil => exact ((List.nil_sublist post).cons₂ c).cons₂ a
  | cons x xs ih => exact ih.cons x

/-- The Archiver emits no download-click event. -/
theorem clickDownload_not_mem_uploadToR2 (ak sk : Option String) (r s : Bool)
    (t f : String) (b : Bool) : Ev.clickDownload b ∉ (uploadToR2 ak sk r s t f).1 := by
  unfold uploadToR2
  repeat' split
  all_goals simp

/-- Inside the inner try body, any download click is immediately preceded
by the arming of the download listener. -/
theorem clickDownload_mem_innerBlock (e : RunEnv) (b : Bool)
    (h : Ev.clickDownload b ∈ (innerBlock e).1) :
    [Ev.armListener, Ev.clickDownload b].Sublist (innerBlock e).1 := by
  unfold innerBlock at h ⊢
  repeat' split at h
  all_goals simp_all [clickDownload_not_mem_uploadToR2]
  · subst h
    exact pair_sublist_append
      [Ev.waitSel true, Ev.clickDropdown true, Ev.selectOpt true, Ev.checkVisible true] [] _ _
  · subst h
    exact pair_sublist_append
      [Ev.waitSel true, Ev.clickDropdown true, Ev.selectOpt true, Ev.checkVisible true] _ _ _
  · subst h
    exact pair_sublist_append
      [Ev.waitSel true, Ev.clickDropdown true, Ev.selectOpt true, Ev.checkVisible true] _ _ _
  · subst h
    exact pair_sublist_append
      [Ev.waitSel true, Ev.clickDropdown true, Ev.selectOpt true, Ev.checkVisible true] _ _ _

/-- Inside the outer try body, any download click is preceded by the
arming of the download listener. -/
theorem clickDownload_mem_outerBody (e : RunEnv) (b : Bool)
    (h : Ev.clickDownload b ∈ (outerBody e).1) :
    [Ev.armListener, Ev.clickDownload b].Sublist (outerBody e).1 := by
  unfold outerBody at h ⊢
  repeat' split at h
  all_goals simp_all
  · exact (((clickDownload_mem_innerBlock e b (by simp_all)).cons _).cons _).cons _
  · exact ((((clickDownload_mem_innerBlock e b (by simp_all)).trans
      (List.sublist_append_left _ _)).cons _).cons _).cons _

/-- The fatal-error handler emits no download-click event. -/
theorem clickDownload_not_mem_fatalTail (e : RunEnv) (b : Bool) :
    Ev.clickDownload b ∉ fatalTail e := by
  unfold fatalTail; split <;> simp

/-- C3: in every run in which the download trigger is clicked, the
download event listener is armed strictly before the click is issued
(script.ts:132-136): the trace contains `armListener` before
`clickDownload`, as the sublist `[armListener, clickDownload]`. -/
theorem c3_listener_armed_before_click (e : RunEnv) (b : Bool)
    (h : Ev.clickDownload b ∈ (run e).1) :
    [Ev.armListener, Ev.clickDownload b].Sublist (run e).1 := by
  simp only [run] at h ⊢
  unfold runTrace at h ⊢
  by_cases ho : (outerBody e).2 = true
  · rw [if_pos ho] at h ⊢
    have hb : Ev.clickDownload b ∈ (outerBody e).1 := by
      simp [clickDownload_not_mem_fatalTail] at h
      exact h
    exact (clickDownload_mem_outerBody e b hb).trans
      ((List.sublist_append_left _ _).trans (List.sublist_append_left _ _))
  · rw [if_neg ho] at h ⊢
    have hb : Ev.clickDownload b ∈ (outerBody e).1 := by
      simp at h
      exact h
    exact (clickDownload_mem_outerBody e b hb).trans (List.sublist_append_left _ _)

/-- C3 witness: in the fully successful run the click occurs, and the
listener-arming event precedes it. -/
theorem c3_listener_armed_before_click_witness :
    [Ev.armListener, Ev.clickDownload true].Sublist (run happyEnv).1 :=
  c3_listener_armed_before_click happyEnv true (by decide)

/-- Every storage key the Archiver sends carries the date and resolved
file name of the run. -/
theorem putObject_mem_uploadToR2 (ak sk : Option String) (r s : Bool) (t f k : String)
    (b : Bool) (h : Ev.putObject k b ∈ (uploadToR2 ak sk r s t f).1) : k = storageKey t f := by
  unfold uploadToR2 at h
  repeat' split at h
  all_goals simp_all

/-- Any key sent from within the inner try body is the storage key of the
run's archival date and upload-time file name. -/
theorem putObject_mem_innerBlock (e : RunEnv) (k : String) (b : Bool)
    (h : Ev.putObject k b ∈ (innerBlock e).1) :
    k = storageKey e.today (jsOr e.suggestedName (synthName e.nowAtUpload)) := by
  unfold innerBlock at h
  repeat' split at h
  all_goals simp_all
  exact putObject_mem_uploadToR2 _ _ _ _ _ _ _ _ h

/-- Any key sent from within the outer try body is the storage key of the
run's archival date and upload-time file name. -/
theorem putObject_mem_outerBody (e : RunEnv) (k : String) (b : Bool)
    (h : Ev.putObject k b ∈ (outerBody e).1) :
    k = storageKey e.today (jsOr e.suggestedName (synthName e.nowAtUpload)) := by
  unfold outerBody at h
  repeat' split at h
  all_goals simp_all
  · exact putObject_mem_innerBlock e k b (by simp_all)
  · exact putObject_mem_innerBlock e k b (by simp_all)

/-- The fatal-error handler sends nothing to the object store. -/
theorem putObject_not_mem_fatalTail (e : RunEnv) (k : String) (b : Bool) :
    Ev.putObject k b ∉ fatalTail e := by
  unfold fatalTail; split <;> simp

/-- Any key sent to the object store during a run is the storage key of
the run's archival date and upload-time file name. -/
theorem putObject_mem_run (e : RunEnv) (k : String) (b : Bool)
    (h : Ev.putObject k b ∈ (run e).1) :
    k = storageKey e.today (jsOr e.suggestedName (synthName e.nowAtUpload)) := by
  simp only [run] at h
  unfold runTrace at h
  by_cases ho : (outerBody e).2 = true
  · rw [if_pos ho] at h
    simp [putObject_not_mem_fatalTail] at h
    exact putObject_mem_outerBody e k b h
  · rw [if_neg ho] at h
    simp at h
    exact putObject_mem_outerBody e k b h

/-- Storage keys built from distinct ten-character (ISO) dates are
distinct, whatever the file names. -/
theorem storageKey_ne_of_date_ne (d1 d2 f1 f2 : String)
    (h1 : d1.length = 10) (h2 : d2.length = 10) (hne : d1 ≠ d2) :
    storageKey d1 f1 ≠ storageKey d2 f2 := by
  intro h
  apply hne
  unfold storageKey at h
  have hd : ("nse-preopen/" ++ d1 ++ "/" ++ f1).data
      = ("nse-preopen/" ++ d2 ++ "/" ++ f2).data := by rw [h]
  simp only [String.data_append, List.append_assoc] at hd
  have hpre := (List.append_inj hd (by rfl)).2
  have hlen : d1.data.length = d2.data.length := by
    have e1 : d1.data.length = d1.length := rfl
    have e2 : d2.data.length = d2.length := rfl
    rw [e1, e2, h1, h2]
  have hdata := (List.append_inj hpre hlen).1
  cases d1
  cases d2
  simp_all

/-- C1 counterexample: archiving `preopen_20240924.csv` on 2024-09-24
passes the key `nse-preopen/2024-09-24/preopen_20240924.csv` to the
object store, not `pre-open-market/2024-09-24/preopen_20240924.csv` as
the claim states: the category segment of the key is `nse-preopen`
(script.ts:39), not `pre-open-market`. -/
theorem c1_storage_key_counterexample :
    Ev.putObject "nse-preopen/2024-09-24/preopen_20240924.csv" true ∈ (run happyEnv).1
    ∧ Ev.putObject "pre-open-market/2024-09-24/preopen_20240924.csv" true ∉ (run happyEnv).1
    ∧ storageKey "2024-09-24" "preopen_20240924.csv"
        ≠ "pre-open-market/2024-09-24/preopen_20240924.csv" := by decide

/-- C1 amended: every key passed to the object store equals
`nse-preopen/{ISO-date}/{fileName}` where the ISO date is the archival-time
UTC date of the run (not derived from the file name) and the file name is
the artifact's upload-time file name; the key is a deterministic function
of the (date, file name) pair, so same-day uploads of the same file name
collide, and uploads on distinct ISO dates (ten-character date strings)
never produce the same key. -/
theorem c1_storage_key_amended (e : RunEnv) (k : String) (b : Bool)
    (d1 d2 f1 f2 : String)
    (hk : Ev.putObject k b ∈ (run e).1)
    (h1 : d1.length = 10) (h2 : d2.length = 10) (hd : d1 ≠ d2) :
    k = "nse-preopen/" ++ e.today ++ "/" ++ jsOr e.suggestedName (synthName e.nowAtUpload)
    ∧ storageKey e.today (jsOr e.suggestedName (synthName e.nowAtUpload))
        = "nse-preopen/" ++ e.today ++ "/" ++ jsOr e.suggestedName (synthName e.nowAtUpload)
    ∧ storageKey d1 f1 ≠ storageKey d2 f2 :=
  ⟨putObject_mem_run e k b hk, rfl, storageKey_ne_of_date_ne d1 d2 f1 f2 h1 h2 hd⟩

/-- C1 witness: the amended statement instantiated at the fully
successful run and the dates 2024-09-24 and 2024-09-25. -/
theorem c1_storage_key_witness :
    "nse-preopen/2024-09-24/preopen_20240924.csv"
        = "nse-preopen/" ++ happyEnv.today ++ "/"
            ++ jsOr happyEnv.suggestedName (synthName happyEnv.nowAtUpload)
    ∧ storageKey happyEnv.today (jsOr happyEnv.suggestedName (synthName happyEnv.nowAtUpload))
        = "nse-preopen/" ++ happyEnv.today ++ "/"
            ++ jsOr happyEnv.suggestedName (synthName happyEnv.nowAtUpload)
    ∧ storageKey "2024-09-24" "preopen_20240924.csv"
        ≠ storageKey "2024-09-25" "preopen_20240925.csv" :=
  c1_storage_key_amended happyEnv "nse-preopen/2024-09-24/preopen_20240924.csv" true
    "2024-09-24" "2024-09-25" "preopen_20240924.csv" "preopen_20240925.csv"
    (by decide) (by decide) (by decide) (by decide)

/-- C2 counterexample: with the access key id present and the secret
absent (one credential present), the Archiver skips the upload and never
attempts it, while the claim states an upload is attempted whenever at
least one credential is present. -/
theorem c2_archival_skip_counterexample :
    truthy (some "key-id") = true
    ∧ (uploadToR2 (some "key-id") none true true "2024-09-24" "preopen_20240924.csv").1
        = [Ev.uploadSkip]
    ∧ Ev.uploadAttempt
        ∉ (uploadToR2 (some "key-id") none true true "2024-09-24" "preopen_20240924.csv").1 := by
  decide

/-- C2 amended: the Archiver skips the upload (reporting a skip, not an
error) exactly when at least one of the two storage credentials is absent
from the configuration, and attempts the upload exactly when both
credentials are present (script.ts:30-33). -/
theorem c2_archival_skip_amended (accessKeyId secretAccessKey : Option String)
    (readOk sendOk : Bool) (today fileName : String) :
    (Ev.uploadSkip ∈ (uploadToR2 accessKeyId secretAccessKey readOk sendOk today fileName).1
      ↔ (truthy accessKeyId = false ∨ truthy secretAccessKey = false))
    ∧ (Ev.uploadAttempt ∈ (uploadToR2 accessKeyId secretAccessKey readOk sendOk today fileName).1
      ↔ (truthy accessKeyId = true ∧ truthy secretAccessKey = true)) := by
  unfold uploadToR2
  repeat' split
  all_goals simp_all
  all_goals
    cases hA : truthy accessKeyId <;> cases hB : truthy secretAccessKey <;> simp_all

/-- The Archiver emits no browser-close event. -/
theorem countP_isClose_uploadToR2 (ak sk : Option String) (r s : Bool) (t f : String) :
    (uploadToR2 ak sk r s t f).1.countP isClose = 0 := by
  unfold uploadToR2
  repeat' split
  all_goals simp [isClose]

/-- The inner try body emits no browser-close event. -/
theorem countP_isClose_innerBlock (e : RunEnv) : (innerBlock e).1.countP isClose = 0 := by
  unfold innerBlock
  repeat' split
  all_goals simp [isClose, List.countP_append, countP_isClose_uploadToR2]

/-- The outer try body emits no browser-close event. -/
theorem countP_isClose_outerBody (e : RunEnv) : (outerBody e).1.countP isClose = 0 := by
  unfold outerBody
  repeat' split
  all_goals simp [isClose, List.countP_append, countP_isClose_innerBlock]

/-- The fatal-error handler emits no browser-close event. -/
theorem countP_isClose_fatalTail (e : RunEnv) : (fatalTail e).countP isClose = 0 := by
  unfold fatalTail; split <;> simp [isClose]

/-- C4: for every run and every terminal outcome, the browser session is
closed exactly once — the trace contains exactly one close event, and it
is the final event of the run (script.ts:179-182, the `finally` block). -/
theorem c4_session_closed_once (e : RunEnv) :
    (run e).1.countP isClose = 1 ∧ (run e).1.getLast? = some Ev.closeBrowser := by
  simp only [run]
  unfold runTrace
  by_cases ho : (outerBody e).2 = true
  · rw [if_pos ho]
    simp [List.countP_append, countP_isClose_outerBody, countP_isClose_fatalTail,
      isClose, List.getLast?_concat]
  · rw [if_neg ho]
    simp [List.countP_append, countP_isClose_outerBody, isClose, List.getLast?_concat]

/-- The run's outcome is decided by the outer body alone: fatal when it
threw, completed when it archived, partial otherwise. -/
theorem run_outcome_eq (e : RunEnv) :
    (run e).2 = (if (outerBody e).2 = true then RunOutcome.fatalFailure
      else if (outerBody e).1.any isPutTrue then RunOutcome.completed
      else RunOutcome.partialFailure) := by
  simp only [run, runOutcomeOf]
  by_cases ho : (outerBody e).2 = true
  · rw [if_pos ho, if_pos ho]
  · rw [if_neg ho, if_neg ho]
    unfold runTrace
    rw [if_neg ho]
    simp [List.any_append, isPutTrue]

/-- C5 counterexample: the fully successful run completes, but the same
run with only the initial diagnostic capture failing is classified
`FatalFailure` — a diagnostic capture I/O error moved the run to a
different terminal outcome, contradicting the claim. -/
theorem c5_diagnostic_errors_counterexample :
    (run happyEnv).2 = RunOutcome.completed
    ∧ (run { happyEnv with initialShotOk := false }).2 = RunOutcome.fatalFailure := by decide

/-- C5 amended: an I/O error of the fatal-error diagnostic capture is
caught and never changes the run's outcome classification (the capture at
script.ts:175 sits inside its own try/catch), but an I/O error of the
initial diagnostic capture (script.ts:99, inside the outer try only)
propagates to the fatal handler and classifies the run `FatalFailure`. -/
theorem c5_diagnostic_errors_amended (e : RunEnv) :
    (run { e with fatalShotOk := true }).2 = (run { e with fatalShotOk := false }).2
    ∧ (e.gotoOk = true → e.initialShotOk = false → (run e).2 = RunOutcome.fatalFailure) := by
  constructor
  · rw [run_outcome_eq, run_outcome_eq]
    have h1 : outerBody { e with fatalShotOk := true } = outerBody e := rfl
    have h2 : outerBody { e with fatalShotOk := false } = outerBody e := rfl
    rw [h1, h2]
  · intro hg hi
    simp [run_outcome_eq, outerBody, hg, hi]

/-- The fatal-error handler never invokes the Archiver. -/
theorem countP_isArchiverCall_fatalTail (e : RunEnv) :
    (fatalTail e).countP isArchiverCall = 0 := by
  unfold fatalTail; split <;> simp [isArchiverCall]

/-- The fatal-error handler attempts exactly one diagnostic capture when
the page URL is queryable, and none otherwise. -/
theorem countP_isShot_fatalTail (e : RunEnv) :
    (fatalTail e).countP isShot = if e.urlOk = true then 1 else 0 := by
  unfold fatalTail; split <;> simp_all [isShot]

/-- C6 counterexample: a run in which the scope-selection control never
appears and the post-selection-error diagnostic write fails terminates as
`FatalFailure`, not `PartialFailure` as the claim states for every run
with the control absent. -/
theorem c6_control_absent_counterexample :
    Ev.waitSel false ∈ (run { happyEnv with selectorFound := false, errShotOk := false }).1
    ∧ (run { happyEnv with selectorFound := false, errShotOk := false }).2
        = RunOutcome.fatalFailure := by decide

/-- C6 amended: in every run that reaches the control wait and in which
the scope-selection control does not appear within its bound, the
post-selection-error diagnostic capture is attempted, the Download
Capturer is never invoked (no visibility lookup, no listener arming, no
click) and the Archiver is never invoked; the run terminates as
`PartialFailure` when the diagnostic write succeeds, and as
`FatalFailure` when the diagnostic write itself fails. -/
theorem c6_control_absent_amended (e : RunEnv)
    (hg : e.gotoOk = true) (hi : e.initialShotOk = true) (ht : e.titleOk = true)
    (hs : e.selectorFound = false) :
    Ev.shot "./screenshots/error-state.png" e.errShotOk ∈ (run e).1
    ∧ Ev.armListener ∉ (run e).1
    ∧ (∀ b, Ev.clickDownload b ∉ (run e).1)
    ∧ (∀ b, Ev.checkVisible b ∉ (run e).1)
    ∧ (run e).1.countP isArchiverCall = 0
    ∧ (e.errShotOk = true → (run e).2 = RunOutcome.partialFailure)
    ∧ (e.errShotOk = false → (run e).2 = RunOutcome.fatalFailure) := by
  have hOB : outerBody e =
      ([Ev.nav true, Ev.shot "./screenshots/pre-open-market.png" true, Ev.title true,
        Ev.waitSel false, Ev.shot "./screenshots/error-state.png" e.errShotOk],
       !e.errShotOk) := by
    simp [outerBody, innerBlock, hg, hi, ht, hs]
  by_cases hE : e.errShotOk = true
  · simp [run, runTrace, runOutcomeOf, hOB, hE, isArchiverCall, isPutTrue,
      List.countP_append, run_outcome_eq]
  · simp only [Bool.not_eq_true] at hE
    simp [run, runTrace, runOutcomeOf, hOB, hE, isArchiverCall, isPutTrue,
      List.countP_append, countP_isArchiverCall_fatalTail, fatalTail]
    by_cases hu : e.urlOk = true <;> simp [hu, isArchiverCall]

/-- C6 witness: the amended statement instantiated at a run with the
control absent and all other effects succeeding: partial failure with the
error-state diagnostic captured and no download activity. -/
theorem c6_control_absent_witness :
    (run { happyEnv with selectorFound := false }).2 = RunOutcome.partialFailure :=
  (c6_control_absent_amended { happyEnv with selectorFound := false }
    (by decide) (by decide) (by decide) (by decide)).2.2.2.2.2.1 (by decide)

/-- C7: in every run in which navigation to the target URL fails within
its bound, the run's outcome is `FatalFailure`, the Archiver is invoked
zero times, and when the current page URL is still queryable exactly one
diagnostic capture is attempted (script.ts:89-96,168-178). -/
theorem c7_navigation_failure (e : RunEnv) (hg : e.gotoOk = false) :
    (run e).2 = RunOutcome.fatalFailure
    ∧ (run e).1.countP isArchiverCall = 0
    ∧ (e.urlOk = true → (run e).1.countP isShot = 1) := by
  have hOB : outerBody e = ([Ev.nav false], true) := by
    simp [outerBody, hg]
  refine ⟨?_, ?_, ?_⟩
  · simp [run_outcome_eq, hOB]
  · simp [run, runTrace, hOB, List.countP_append, isArchiverCall,
      countP_isArchiverCall_fatalTail, isClose]
  · intro hu
    simp [run, runTrace, hOB, List.countP_append, isShot, countP_isShot_fatalTail, hu]

/-- C7 witness: the statement instantiated at a run whose navigation
fails with the URL still queryable. -/
theorem c7_navigation_failure_witness :
    (run { happyEnv with gotoOk := false }).2 = RunOutcome.fatalFailure
    ∧ (run { happyEnv with gotoOk := false }).1.countP isShot = 1 :=
  ⟨(c7_navigation_failure { happyEnv with gotoOk := false } (by decide)).1,
   (c7_navigation_failure { happyEnv with gotoOk := false } (by decide)).2.2 (by decide)⟩

/-- C8: when the target provides no suggested file name, the artifact is
saved under the name synthesized from the clock at script.ts:143
(`pre-open-data-1000.csv`) while the Archiver is handed the name
synthesized from a second clock reading at script.ts:149
(`pre-open-data-2000.csv`): the two `Date.now()` calls differ once the
clock advances, so the name handed to the Archiver is non-empty but does
not equal the name the artifact was saved under. -/
theorem c8_filename_mismatch :
    Ev.save "downloads/pre-open-data-1000.csv" true ∈ (run noNameEnv).1
    ∧ Ev.putObject "nse-preopen/2024-09-24/pre-open-data-2000.csv" true ∈ (run noNameEnv).1
    ∧ jsOr noNameEnv.suggestedName (synthName noNameEnv.nowAtSave)
        ≠ jsOr noNameEnv.suggestedName (synthName noNameEnv.nowAtUpload)
    ∧ jsOr noNameEnv.suggestedName (synthName noNameEnv.nowAtUpload) ≠ "" := by decide

/-- Filtering by a stronger predicate yields at most as many elements. -/
theorem length_filter_le_filter {α : Type} (p q : α → Bool) (l : List α)
    (h : ∀ x ∈ l, p x = true → q x = true) :
    (l.filter p).length ≤ (l.filter q).length := by
  induction l with
  | nil => simp
  | cons a t ih =>
    have ht : ∀ x ∈ t, p x = true → q x = true := fun x hx => h x (List.mem_cons_of_mem a hx)
    by_cases hp : p a = true
    · rw [List.filter_cons_of_pos hp, List.filter_cons_of_pos (h a (List.mem_cons_self a t) hp)]
      simpa using ih ht
    · rw [List.filter_cons_of_neg (by simp_all)]
      by_cases hq : q a = true
      · rw [List.filter_cons_of_pos hq]
        exact (ih ht).trans (Nat.le_succ _)
      · rw [List.filter_cons_of_neg (by simp_all)]
        exact ih ht

/-- A filter by a weaker predicate absorbs into a filter by a stronger
one. -/
theorem filter_filter_eq_of_imp {α : Type} (p q : α → Bool) (l : List α)
    (h : ∀ x ∈ l, p x = true → q x = true) :
    (l.filter q).filter p = l.filter p := by
  induction l with
  | nil => simp
  | cons a t ih =>
    have ht : ∀ x ∈ t, p x = true → q x = true := fun x hx => h x (List.mem_cons_of_mem a hx)
    by_cases hp : p a = true
    · rw [List.filter_cons_of_pos (h a (List.mem_cons_self a t) hp),
        List.filter_cons_of_pos hp, List.filter_cons_of_pos hp, ih ht]
    · by_cases hq : q a = true
      · rw [List.filter_cons_of_pos hq, List.filter_cons_of_neg (by simp_all),
          List.filter_cons_of_neg (by simp_all), ih ht]
      · rw [List.filter_cons_of_neg (by simp_all), List.filter_cons_of_neg (by simp_all), ih ht]

/-- Every allowed timestamp is one of the processed arrival timestamps. -/
theorem mem_allowedTimes (arrivals : List Nat) :
    ∀ (requests : List Nat) (t : Nat), t ∈ allowedTimes requests arrivals → t ∈ arrivals := by
  induction arrivals with
  | nil => intro requests t h; simp [allowedTimes] at h
  | cons now rest ih =>
    intro requests t h
    unfold allowedTimes at h
    split at h
    · rcases List.mem_cons.1 h with h | h
      · exact h ▸ List.mem_cons_self _ _
      · exact List.mem_cons_of_mem _ (ih _ t h)
    · exact List.mem_cons_of_mem _ (ih _ t h)

/-- Unfolding equation of `allowedTimes` on a nonempty arrival list. -/
theorem allowedTimes_cons (requests : List Nat) (now : Nat) (rest : List Nat) :
    allowedTimes requests (now :: rest) =
      if (RateLimiter.fetch requests now).2 then
        now :: allowedTimes (RateLimiter.fetch requests now).1 rest
      else allowedTimes (RateLimiter.fetch requests now).1 rest := rfl

/-- A timestamp at or after the end of a window is outside it. -/
theorem inWindow_false_of_ge (a now t : Nat) (hw : a + WINDOW_MS ≤ now) (ht : now ≤ t) :
    inWindow a t = false := by
  have h : ¬(t < a + WINDOW_MS) := by omega
  simp [inWindow, h]

/-- A timestamp inside a window that extends past `now` is recent at
`now`. -/
theorem recentB_true_of_inWindow (a now x : Nat) (hw : now < a + WINDOW_MS)
    (hx : inWindow a x = true) : decide (now - x < WINDOW_MS) = true := by
  simp only [inWindow, Bool.and_eq_true, decide_eq_true_eq] at hx
  simp only [decide_eq_true_eq]
  omega

/-- The sliding-window invariant of the limiter: processing a
nondecreasing arrival sequence from any state that respects the ceiling
and precedes the arrivals, every length-`WINDOW_MS` window holds at most
`MAX_REQUESTS` allowed timestamps (state timestamps included). -/
theorem allowed_window_bound (arrivals : List Nat) :
    ∀ (requests : List Nat) (a : Nat),
      List.Pairwise (fun x y => x ≤ y) arrivals →
      (∀ t ∈ requests, ∀ n ∈ arrivals, t ≤ n) →
      (∀ b, ((requests.filter (inWindow b)).length ≤ MAX_REQUESTS)) →
      ((requests ++ allowedTimes requests arrivals).filter (inWindow a)).length
        ≤ MAX_REQUESTS := by
  induction arrivals with
  | nil =>
    intro requests a _ _ hcap
    simpa [allowedTimes] using hcap a
  | cons now rest ih =>
    intro requests a hsorted hle hcap
    have hsr : List.Pairwise (fun x y => x ≤ y) rest := (List.pairwise_cons.1 hsorted).2
    have hnowle : ∀ n ∈ rest, now ≤ n := (List.pairwise_cons.1 hsorted).1
    by_cases hfull : MAX_REQUESTS ≤ (recentRequests now requests).length
    · have hf1 : (RateLimiter.fetch requests now).1 = recentRequests now requests := by
        simp [RateLimiter.fetch, hfull]
      have hf2 : (RateLimiter.fetch requests now).2 = false := by
        simp [RateLimiter.fetch, hfull]
      have hstep : allowedTimes requests (now :: rest)
          = allowedTimes (recentRequests now requests) rest := by
        rw [allowedTimes_cons, hf2, hf1]
        simp
      rw [hstep]
      have hler : ∀ t ∈ recentRequests now requests, ∀ n ∈ rest, t ≤ n := by
        intro t ht n hn
        exact hle t (List.mem_of_mem_filter ht) n (List.mem_cons_of_mem _ hn)
      have hcapr : ∀ b, (((recentRequests now requests).filter (inWindow b)).length
          ≤ MAX_REQUESTS) := by
        intro b
        exact le_trans (((List.filter_sublist requests).filter _).length_le) (hcap b)
      by_cases hwin : a + WINDOW_MS ≤ now
      · have hnone : (allowedTimes (recentRequests now requests) rest).filter (inWindow a)
            = [] := by
          rw [List.filter_eq_nil_iff]
          intro t ht
          have htr := mem_allowedTimes rest _ t ht
          simp [inWindow_false_of_ge a now t hwin (hnowle t htr)]
        rw [List.filter_append, hnone]
        simpa using hcap a
      · have himp : ∀ x ∈ requests, inWindow a x = true →
            decide (now - x < WINDOW_MS) = true :=
          fun x _ hx => recentB_true_of_inWindow a now x (by omega) hx
        have hfeq : requests.filter (inWindow a)
            = (recentRequests now requests).filter (inWindow a) := by
          unfold recentRequests
          rw [filter_filter_eq_of_imp (inWindow a) (fun t => decide (now - t < WINDOW_MS))
            requests himp]
        have hIH := ih (recentRequests now requests) a hsr hler hcapr
        rw [List.filter_append] at hIH ⊢
        rw [hfeq]
        exact hIH
    · have hf1 : (RateLimiter.fetch requests now).1
          = recentRequests now requests ++ [now] := by
        simp [RateLimiter.fetch, hfull]
      have hf2 : (RateLimiter.fetch requests now).2 = true := by
        simp [RateLimiter.fetch, hfull]
      have hstep : allowedTimes requests (now :: rest)
          = now :: allowedTimes (recentRequests now requests ++ [now]) rest := by
        rw [allowedTimes_cons, hf2, hf1]
        simp
      rw [hstep]
      have hlen : (recentRequests now requests).length < MAX_REQUESTS :=
        Nat.lt_of_not_le hfull
      by_cases hwin : a + WINDOW_MS ≤ now
      · have hnone : ((now :: allowedTimes (recentRequests now requests ++ [now]) rest).filter
            (inWindow a)) = [] := by
          rw [List.filter_eq_nil_iff]
          intro t ht
          rcases List.mem_cons.1 ht with h | h
          · simp [h, inWindow_false_of_ge a now now hwin le_rfl]
          · have htr := mem_allowedTimes rest _ t h
            simp [inWindow_false_of_ge a now t hwin (hnowle t htr)]
        rw [List.filter_append, hnone]
        simpa using hcap a
      · have himp : ∀ x ∈ requests, inWindow a x = true →
            decide (now - x < WINDOW_MS) = true :=
          fun x _ hx => recentB_true_of_inWindow a now x (by omega) hx
        have hfeq : requests.filter (inWindow a)
            = (recentRequests now requests).filter (inWindow a) := by
          unfold recentRequests
          rw [filter_filter_eq_of_imp (inWindow a) (fun t => decide (now - t < WINDOW_MS))
            requests himp]
        have hler' : ∀ t ∈ recentRequests now requests ++ [now], ∀ n ∈ rest, t ≤ n := by
          intro t ht n hn
          rcases List.mem_append.1 ht with h | h
          · exact hle t (List.mem_of_mem_filter h) n (List.mem_cons_of_mem _ hn)
          · have h' : t = now := by simpa using h
            exact h' ▸ hnowle n hn
        have hcap' : ∀ b, (((recentRequests now requests ++ [now]).filter (inWindow b)).length
            ≤ MAX_REQUESTS) := by
          intro b
          rw [List.filter_append, List.length_append]
          have h1 : ((recentRequests now requests).filter (inWindow b)).length
              ≤ (recentRequests now requests).length := List.length_filter_le _ _
          have h2 : (([now] : List Nat).filter (inWindow b)).length ≤ 1 := by
            by_cases hb : inWindow b now = true <;> simp [hb]
          omega
        have hIH := ih (recentRequests now requests ++ [now]) a hsr hler' hcap'
        rw [List.filter_append, List.filter_append] at hIH
        rw [List.filter_append, hfeq]
        by_cases hn : inWindow a now = true <;>
          simp [List.filter_cons, hn] at hIH ⊢ <;>
          omega

/-- Unfolding equation of `finalState` on a nonempty arrival list. -/
theorem finalState_cons (requests : List Nat) (now : Nat) (rest : List Nat) :
    finalState requests (now :: rest) = finalState (RateLimiter.fetch requests now).1 rest := rfl

/-- After processing a nondecreasing arrival sequence, the limiter's
stored state filtered at a later instant `n` holds exactly the allowed
timestamps (state included) still recent at `n`. -/
theorem finalState_filter_eq (arrivals : List Nat) :
    ∀ (requests : List Nat) (n : Nat),
      List.Pairwise (fun x y => x ≤ y) arrivals →
      (∀ t ∈ requests, ∀ m ∈ arrivals, t ≤ m) →
      (∀ m ∈ arrivals, m ≤ n) →
      (finalState requests arrivals).filter (fun t => decide (n - t < WINDOW_MS))
        = (requests ++ allowedTimes requests arrivals).filter
            (fun t => decide (n - t < WINDOW_MS)) := by
  induction arrivals with
  | nil =>
    intro requests n _ _ _
    simp [finalState, allowedTimes]
  | cons now rest ih =>
    intro requests n hsorted hle hn
    have hsr : List.Pairwise (fun x y => x ≤ y) rest := (List.pairwise_cons.1 hsorted).2
    have hnowle : ∀ m ∈ rest, now ≤ m := (List.pairwise_cons.1 hsorted).1
    have hnn : now ≤ n := hn now (List.mem_cons_self _ _)
    have hnr : ∀ m ∈ rest, m ≤ n := fun m hm => hn m (List.mem_cons_of_mem _ hm)
    have himp : ∀ x ∈ requests, decide (n - x < WINDOW_MS) = true →
        decide (now - x < WINDOW_MS) = true := by
      intro x _ hx
      simp only [decide_eq_true_eq] at hx ⊢
      omega
    have hfeq : requests.filter (fun t => decide (n - t < WINDOW_MS))
        = (recentRequests now requests).filter (fun t => decide (n - t < WINDOW_MS)) := by
      unfold recentRequests
      rw [filter_filter_eq_of_imp (fun t => decide (n - t < WINDOW_MS))
        (fun t => decide (now - t < WINDOW_MS)) requests himp]
    by_cases hfull : MAX_REQUESTS ≤ (recentRequests now requests).length
    · have hf1 : (RateLimiter.fetch requests now).1 = recentRequests now requests := by
        simp [RateLimiter.fetch, hfull]
      have hf2 : (RateLimiter.fetch requests now).2 = false := by
        simp [RateLimiter.fetch, hfull]
      have hler : ∀ t ∈ recentRequests now requests, ∀ m ∈ rest, t ≤ m := by
        intro t ht m hm
        exact hle t (List.mem_of_mem_filter ht) m (List.mem_cons_of_mem _ hm)
      rw [finalState_cons, hf1, allowedTimes_cons, hf2, hf1]
      simp only [Bool.false_eq_true, if_false]
      rw [ih (recentRequests now requests) n hsr hler hnr]
      rw [List.filter_append, List.filter_append, hfeq]
    · have hf1 : (RateLimiter.fetch requests now).1
          = recentRequests now requests ++ [now] := by
        simp [RateLimiter.fetch, hfull]
      have hf2 : (RateLimiter.fetch requests now).2 = true := by
        simp [RateLimiter.fetch, hfull]
      have hler' : ∀ t ∈ recentRequests now requests ++ [now], ∀ m ∈ rest, t ≤ m := by
        intro t ht m hm
        rcases List.mem_append.1 ht with h | h
        · exact hle t (List.mem_of_mem_filter h) m (List.mem_cons_of_mem _ hm)
        · have h' : t = now := by simpa using h
          exact h' ▸ hnowle m hm
      rw [finalState_cons, hf1, allowedTimes_cons, hf2, hf1]
      simp only [if_true]
      rw [ih (recentRequests now requests ++ [now]) n hsr hler' hnr]
      rw [List.filter_append, List.filter_append, List.filter_append, hfeq]
      by_cases hnow : decide (n - now < WINDOW_MS) = true <;>
        simp [List.filter_cons, hnow, List.append_assoc]

/-- C9: for every nondecreasing sequence of request instants of one
caller, at most 30 requests are allowed in any sliding 60000-millisecond
window; and a further request at an instant `n` by which 30 allowed
requests fall within the preceding 60000 milliseconds is rejected by
`RateLimiter.fetch`, to which the middleware responds with HTTP 429 and
the structured payload `Rate limit exceeded`
(rate-limiter.ts:6-27, api/index.ts:18-36). -/
theorem c9_rate_limiter_window (arrivals : List Nat) (a n : Nat)
    (hs : List.Pairwise (fun x y => x ≤ y) arrivals)
    (hn : ∀ m ∈ arrivals, m ≤ n) :
    ((allowedTimes [] arrivals).filter (inWindow a)).length ≤ MAX_REQUESTS
    ∧ (MAX_REQUESTS ≤ ((allowedTimes [] arrivals).filter
          (fun t => decide (n - t < WINDOW_MS))).length →
        (RateLimiter.fetch (finalState [] arrivals) n).2 = false
        ∧ rateLimitResponse (RateLimiter.fetch (finalState [] arrivals) n).2
            = some (429, "Rate limit exceeded")) := by
  constructor
  · have h := allowed_window_bound arrivals [] a hs (by simp) (fun b => by simp)
    simpa using h
  · intro hfull
    have hstate := finalState_filter_eq arrivals [] n hs (by simp) hn
    have h2 : MAX_REQUESTS ≤ ((finalState [] arrivals).filter
        (fun t => decide (n - t < WINDOW_MS))).length := by
      rw [hstate]
      simpa using hfull
    have hcond : MAX_REQUESTS ≤ (recentRequests n (finalState [] arrivals)).length := h2
    have hf : (RateLimiter.fetch (finalState [] arrivals) n).2 = false := by
      simp [RateLimiter.fetch, hcond]
    exact ⟨hf, by rw [hf]; rfl⟩

/-- C9 witness: thirty same-instant requests are all allowed; they fill
the window, and the statement instantiated there shows the 31st request
at that instant is rejected with a 429 response. -/
theorem c9_rate_limiter_window_witness :
    MAX_REQUESTS ≤ ((allowedTimes [] (List.replicate 30 0)).filter
        (fun t => decide (0 - t < WINDOW_MS))).length
    ∧ (((allowedTimes [] (List.replicate 30 0)).filter (inWindow 0)).length ≤ MAX_REQUESTS
      ∧ (MAX_REQUESTS ≤ ((allowedTimes [] (List.replicate 30 0)).filter
            (fun t => decide (0 - t < WINDOW_MS))).length →
          (RateLimiter.fetch (finalState [] (List.replicate 30 0)) 0).2 = false
          ∧ rateLimitResponse (RateLimiter.fetch (finalState [] (List.replicate 30 0)) 0).2
              = some (429, "Rate limit exceeded"))) :=
  ⟨by decide, c9_rate_limiter_window (List.replicate 30 0) 0 0 (by decide) (by decide)⟩

/-- Membership in the set-insertion step: the element was already present
or is the inserted one. -/
theorem mem_addUnique (acc : List String) (x d : String) (h : d ∈ addUnique acc x) :
    d ∈ acc ∨ d = x := by
  unfold addUnique at h
  split at h
  · exact Or.inl h
  · rcases List.mem_append.1 h with h | h
    · exact Or.inl h
    · exact Or.inr (by simpa using h)

/-- Set insertion preserves the no-duplicates invariant. -/
theorem nodup_addUnique (acc : List String) (x : String) (h : acc.Nodup) :
    (addUnique acc x).Nodup := by
  by_cases hx : x ∈ acc
  · simpa [addUnique, hx] using h
  · simp [addUnique, hx, List.nodup_append, h]

/-- Every date collected over `keys` was in the accumulator or is the
captured date of one of the keys. -/
theorem mem_collectDates (keys : List String) :
    ∀ (acc : List String) (d : String),
      d ∈ keys.foldl (fun acc k => match dateSuffix k with
        | some x => addUnique acc x
        | none => acc) acc →
      d ∈ acc ∨ ∃ k ∈ keys, dateSuffix k = some d := by
  induction keys with
  | nil =>
    intro acc d h
    simp only [List.foldl_nil] at h
    exact Or.inl h
  | cons k ks ih =>
    intro acc d h
    rw [List.foldl_cons] at h
    cases hk : dateSuffix k with
    | none =>
      simp only [hk] at h
      rcases ih acc d h with h' | ⟨k', h1, h2⟩
      · exact Or.inl h'
      · exact Or.inr ⟨k', List.mem_cons_of_mem _ h1, h2⟩
    | some x =>
      simp only [hk] at h
      rcases ih (addUnique acc x) d h with h' | ⟨k', h1, h2⟩
      · rcases mem_addUnique acc x d h' with h'' | rfl
        · exact Or.inl h''
        · exact Or.inr ⟨k, List.mem_cons_self _ _, hk⟩
      · exact Or.inr ⟨k', List.mem_cons_of_mem _ h1, h2⟩

/-- Collecting dates from a duplicate-free accumulator stays
duplicate-free. -/
theorem nodup_collectDates (keys : List String) :
    ∀ acc : List String, acc.Nodup →
      (keys.foldl (fun acc k => match dateSuffix k with
        | some x => addUnique acc x
        | none => acc) acc).Nodup := by
  induction keys with
  | nil =>
    intro acc h
    simpa using h
  | cons k ks ih =>
    intro acc h
    rw [List.foldl_cons]
    cases hk : dateSuffix k with
    | none => simpa only [hk] using ih acc h
    | some x => simpa only [hk] using ih (addUnique acc x) (nodup_addUnique acc x h)

/-- Every date served by the route comes from a bucket key under the
`pre-open-market/` prefix whose regex capture is that date. -/
theorem mem_bucketDates (allKeys : List String) (d : String) (h : d ∈ bucketDates allKeys) :
    ∃ k ∈ allKeys, String.isPrefixOf "pre-open-market/" k = true ∧ dateSuffix k = some d := by
  unfold bucketDates at h
  rw [List.mem_reverse] at h
  have h2 := (List.perm_insertionSort (fun a b => a ≤ b) _).mem_iff.1 h
  rcases mem_collectDates _ [] d h2 with h' | ⟨k, h1, hk⟩
  · simp at h'
  · rcases List.mem_filter.1 h1 with ⟨hmem, hpre⟩
    exact ⟨k, hmem, hpre, hk⟩

/-- The served date list holds no duplicates. -/
theorem nodup_bucketDates (allKeys : List String) : (bucketDates allKeys).Nodup := by
  unfold bucketDates
  rw [List.nodup_reverse]
  exact ((List.perm_insertionSort (fun a b => a ≤ b) _).nodup_iff).2
    (nodup_collectDates _ [] (by simp))

/-- The served date list is sorted newest first. -/
theorem sorted_bucketDates (allKeys : List String) :
    List.Pairwise (fun x y : String => y ≤ x) (bucketDates allKeys) := by
  unfold bucketDates
  rw [List.pairwise_reverse]
  exact List.sorted_insertionSort (fun a b => a ≤ b) _

/-- The JS falsy-defaulting of a positive default is positive. -/
theorem defaultOr_pos (q : Option Nat) (d : Nat) (hd : 0 < d) : 0 < defaultOr q d := by
  rcases q with _ | v
  · simpa [defaultOr] using hd
  · rcases v with _ | v
    · simpa [defaultOr] using hd
    · simp [defaultOr]

/-- `Math.ceil` over naturals: `(c + l - 1) / l` is the rational ceiling
of `c / l` for positive `l`. -/
theorem totalPages_eq_ceil (c l : Nat) (hl : 0 < l) :
    (((c + l - 1) / l : Nat) : ℤ) = ⌈(c : ℚ) / (l : ℚ)⌉ := by
  have hq0 : (0 : ℚ) < (l : ℚ) := by exact_mod_cast hl
  have hmul := Nat.div_mul_le_self (c + l - 1) l
  have h1 : c ≤ ((c + l - 1) / l) * l := by
    rcases Nat.eq_zero_or_pos c with hc | hc
    · simp [hc]
    · by_contra hcon
      push_neg at hcon
      have h3 : ((c + l - 1) / l + 1) * l ≤ c + l - 1 := by
        rw [Nat.succ_mul]
        omega
      have h4 : (c + l - 1) / l + 1 ≤ (c + l - 1) / l := (Nat.le_div_iff_mul_le hl).2 h3
      omega
  have h2 : ((c + l - 1) / l) * l < c + l := by omega
  rw [eq_comm, Int.ceil_eq_iff]
  constructor
  · rw [lt_div_iff₀ hq0]
    push_cast
    rw [sub_mul, one_mul, sub_lt_iff_lt_add]
    exact_mod_cast h2
  · rw [div_le_iff₀ hq0]
    push_cast
    exact_mod_cast h1

/-- C10: the `/api/dates` route returns only dates captured by the
`YYYY-MM-DD.csv` regex from bucket keys under the `pre-open-market/`
prefix, without duplicates, sorted newest first; the page holds at most
`limit` dates, `totalPages` is the ceiling of `totalCount / limit`, and
absent query values default to page 1 and limit 10
(api/index.ts:105-147). -/
theorem c10_list_dates (allKeys : List String) (pageQ limitQ : Option Nat) :
    (∀ d ∈ (listDatesHandler allKeys pageQ limitQ).dates,
        ∃ k ∈ allKeys, String.isPrefixOf "pre-open-market/" k = true ∧ dateSuffix k = some d)
    ∧ (listDatesHandler allKeys pageQ limitQ).dates.Nodup
    ∧ List.Pairwise (fun x y => y ≤ x) (listDatesHandler allKeys pageQ limitQ).dates
    ∧ (listDatesHandler allKeys pageQ limitQ).dates.length
        ≤ (listDatesHandler allKeys pageQ limitQ).limit
    ∧ (((listDatesHandler allKeys pageQ limitQ).totalPages : ℤ)
        = ⌈((listDatesHandler allKeys pageQ limitQ).totalCount : ℚ)
            / ((listDatesHandler allKeys pageQ limitQ).limit : ℚ)⌉)
    ∧ (pageQ = none → (listDatesHandler allKeys pageQ limitQ).page = 1)
    ∧ (limitQ = none → (listDatesHandler allKeys pageQ limitQ).limit = 10) := by
  simp only [listDatesHandler]
  refine ⟨?_, ?_, ?_, ?_, ?_, ?_, ?_⟩
  · intro d hd
    exact mem_bucketDates allKeys d (List.mem_of_mem_drop (List.mem_of_mem_take hd))
  · exact (nodup_bucketDates allKeys).sublist
      ((List.take_sublist _ _).trans (List.drop_sublist _ _))
  · exact List.Pairwise.sublist ((List.take_sublist _ _).trans (List.drop_sublist _ _))
      (sorted_bucketDates allKeys)
  · exact List.length_take_le _ _
  · exact totalPages_eq_ceil (bucketDates allKeys).length (defaultOr limitQ 10)
      (defaultOr_pos limitQ 10 (by simp))
  · intro h
    simp [h, defaultOr]
  · intro h
    simp [h, defaultOr]
